import Mathlib

/-!
Verification of the KHQR payload generator (TLV encoding/decoding,
CRC-16/CCITT-FALSE checksum, UTF-8-aware truncation, payload assembly
and verification).

JavaScript strings are modelled as lists of Unicode code points
(`List Char`); `for...of` iteration, `slice` indexing and concatenation
on such lists mirror the source's string operations.  UTF-8 byte lengths
are computed per code point with `Char.utf8Size`, matching
`Buffer.byteLength(s, "utf8")`.  The wall-clock read `Date.now()` is
modelled as an explicit `now : Nat` parameter, and the external MD5
content fingerprint (a black-box digest of the final string) is omitted
from the result record.
-/

/-- JavaScript strings modelled as lists of code points. -/
abbrev Str := List Char

/-- Convert a Lean string literal to the code-point list model. -/
def strL (s : String) : Str := s.toList

/-- UTF-8 byte length of a string; models `Buffer.byteLength(s, "utf8")`
(the source's `utf8ByteLength`). -/
def utf8ByteLength (s : Str) : Nat := s.foldl (fun n c => n + c.utf8Size) 0

/-- Loop body of `truncUtf8`: walk the code points, keeping a running
byte count `acc`, and stop (returning `[]`) as soon as appending the next
character would push the count past `maxBytes`.  Models the
`for (const ch of s)` loop with its `break`. -/
def truncGo (maxBytes : Nat) : Str → Nat → Str
  | [], _ => []
  | c :: cs, acc =>
    if maxBytes < acc + c.utf8Size then []
    else c :: truncGo maxBytes cs (acc + c.utf8Size)

/-- UTF-8-aware truncation to a byte budget (source `truncUtf8`):
returns `s` unchanged when it already fits, otherwise the longest prefix
of whole code points whose cumulative UTF-8 byte length stays within
`maxBytes`. -/
def truncUtf8 (s : Str) (maxBytes : Nat) : Str :=
  if utf8ByteLength s ≤ maxBytes then s else truncGo maxBytes s 0

theorem utf8_foldl_shift (l : Str) (a : Nat) :
    l.foldl (fun n c => n + c.utf8Size) a = a + l.foldl (fun n c => n + c.utf8Size) 0 := by
  induction l generalizing a with
  | nil => simp
  | cons e u ihu =>
    rw [List.foldl_cons, List.foldl_cons, ihu, ihu (0 + e.utf8Size)]
    omega

theorem utf8ByteLength_cons (c : Char) (s : Str) :
    utf8ByteLength (c :: s) = c.utf8Size + utf8ByteLength s := by
  show (c :: s).foldl (fun n c => n + c.utf8Size) 0 = _
  rw [List.foldl_cons, utf8_foldl_shift]
  simp only [utf8ByteLength]
  omega

theorem utf8ByteLength_append (a b : Str) :
    utf8ByteLength (a ++ b) = utf8ByteLength a + utf8ByteLength b := by
  induction a with
  | nil => simp [utf8ByteLength]
  | cons c t ih => rw [List.cons_append, utf8ByteLength_cons, utf8ByteLength_cons, ih]; omega

theorem truncGo_bytes_le (m : Nat) :
    ∀ (s : Str) (acc : Nat), acc ≤ m → acc + utf8ByteLength (truncGo m s acc) ≤ m
  | [], acc, h => by simpa [truncGo, utf8ByteLength] using h
  | c :: cs, acc, h => by
    rw [truncGo]
    split
    · simpa [utf8ByteLength]
    · rename_i hle
      rw [utf8ByteLength_cons]
      have := truncGo_bytes_le m cs (acc + c.utf8Size) (by omega)
      omega

/-- The truncated string always fits the byte budget. -/
theorem utf8ByteLength_truncUtf8_le (s : Str) (n : Nat) :
    utf8ByteLength (truncUtf8 s n) ≤ n := by
  rw [truncUtf8]
  split
  · assumption
  · simpa using truncGo_bytes_le n s 0 (by omega)

theorem truncUtf8_of_le {s : Str} {n : Nat} (h : utf8ByteLength s ≤ n) :
    truncUtf8 s n = s := by
  rw [truncUtf8, if_pos h]

/-- C9: truncation to a byte budget is idempotent. -/
theorem truncUtf8_idem (s : Str) (n : Nat) :
    truncUtf8 (truncUtf8 s n) n = truncUtf8 s n :=
  truncUtf8_of_le (utf8ByteLength_truncUtf8_le s n)

/-! ## Decimal digit rendering (JavaScript `String(n)` for naturals) -/

/-- ASCII digit character for a digit value. -/
def digitChar (d : Nat) : Char := Char.ofNat (48 + d)

/-- Fuel-indexed digit accumulator; the fuel only bounds the loop and is
always sufficient at the call site in `natDigits`. -/
def natDigitsGo : Nat → Nat → Str → Str
  | 0, _, acc => acc
  | fuel + 1, n, acc =>
    if n < 10 then digitChar n :: acc
    else natDigitsGo fuel (n / 10) (digitChar (n % 10) :: acc)

/-- Decimal rendering of a natural number, most significant digit first;
models JavaScript `String(n)` for a nonnegative integer. -/
def natDigits (n : Nat) : Str := natDigitsGo (n + 1) n []

/-- Numeric value of a two-character digit string; models
`Number(lenStr)` after `lenStr` passed the `^\d{2}$` test. -/
def twoDigitVal (s : Str) : Nat :=
  match s with
  | [a, b] => 10 * (a.toNat - 48) + (b.toNat - 48)
  | _ => 0

/-- Test for exactly two decimal digits (the `^\d{2}$` regex). -/
def isTwoDigits (s : Str) : Bool :=
  s.length == 2 && s.all Char.isDigit

/-- Two-character zero-padded length rendering:
`String(len).padStart(2, "0")`. -/
def lenDigits2 (n : Nat) : Str :=
  if n < 10 then ['0', digitChar n] else natDigits n

/-! ## CRC-16/CCITT-FALSE engine -/

/-- UTF-8 encoding of one code point. -/
def utf8EncodeChar (c : Char) : List Nat :=
  let n := c.toNat
  if n < 128 then [n]
  else if n < 2048 then [192 + n / 64, 128 + n % 64]
  else if n < 65536 then [224 + n / 4096, 128 + n / 64 % 64, 128 + n % 64]
  else [240 + n / 262144, 128 + n / 4096 % 64, 128 + n / 64 % 64, 128 + n % 64]

/-- UTF-8 byte sequence of a string (`Buffer.from(input, "utf8")`). -/
def utf8Bytes (s : Str) : List Nat := (s.map utf8EncodeChar).flatten

/-- One shift round of the CRC loop: shift left, XOR with the polynomial
`0x1021` when the high bit was set, and mask to 16 bits. -/
def crcRound (c : Nat) : Nat :=
  if c &&& 0x8000 ≠ 0 then ((c <<< 1) ^^^ 0x1021) &&& 0xFFFF
  else (c <<< 1) &&& 0xFFFF

/-- Process one input byte: XOR it into the high 8 bits of the register,
then run 8 shift rounds. -/
def crcByteStep (c b : Nat) : Nat :=
  crcRound (crcRound (crcRound (crcRound (crcRound (crcRound (crcRound (crcRound
    (c ^^^ ((b &&& 0xFF) <<< 8)))))))))

/-- CRC-16/CCITT-FALSE register value: initial register `0xFFFF`, no
reflection, no final XOR. -/
def crc16 (bytes : List Nat) : Nat := bytes.foldl crcByteStep 0xFFFF

/-- Uppercase hexadecimal digit character. -/
def hexDigitU (d : Nat) : Char :=
  if d < 10 then Char.ofNat (48 + d) else Char.ofNat (55 + d)

/-- Four-digit uppercase hexadecimal rendering.  For values below
`0x10000` this equals `crc.toString(16).toUpperCase().padStart(4, "0")`. -/
def hex4 (n : Nat) : Str :=
  [hexDigitU (n / 4096 % 16), hexDigitU (n / 256 % 16),
   hexDigitU (n / 16 % 16), hexDigitU (n % 16)]

/-- CRC-16/CCITT-FALSE of a string, rendered as four uppercase hex
digits (source `crc16CcittFalseHex`). -/
def crc16CcittFalseHex (input : Str) : Str := hex4 (crc16 (utf8Bytes input))

set_option maxRecDepth 10000 in
/-- C5: the engine reproduces the standard CRC-16/CCITT-FALSE check value
for the ASCII string "123456789", namely "29B1". -/
theorem crc16_check_value :
    crc16CcittFalseHex (strL ("123456789")) = strL ("29B1") := by decide

/-! ## TLV encoding -/

/-- Error taxonomy.  The source throws `Error(message)`; each constructor
records which message was thrown (`MissingRequiredField`, `InvalidTag`,
`ValueTooLong`). -/
inductive KhqrError where
  | missingRequiredField (field : Str)
  | invalidTag (tag : Str)
  | valueTooLong (tag : Str) (len : Nat)
deriving DecidableEq, Repr

deriving instance DecidableEq for Except

/-- Raw TLV rendering `tag + String(len).padStart(2, "0") + value`, with
`len` the value's UTF-8 byte length. -/
def tlvRaw (tag value : Str) : Str :=
  tag ++ lenDigits2 (utf8ByteLength value) ++ value

/-- TLV field encoder (source `tlv`): rejects non-two-digit tags and
values whose UTF-8 byte length exceeds 99, otherwise produces
`tag + length + value`. -/
def tlv (tag value : Str) : Except KhqrError Str :=
  if isTwoDigits tag = false then .error (.invalidTag tag)
  else if 99 < utf8ByteLength value then .error (.valueTooLong tag (utf8ByteLength value))
  else .ok (tlvRaw tag value)

/-! ## Top-level TLV decoder

The source returns a JavaScript object built by repeated `out[tag] =
value` assignments.  The model returns the insertion sequence as a list
of `(tag, value)` pairs in read order; the object's mapping semantics is
recovered by `lookupTlv`, which takes the last binding of a key
(last-write-wins, as assignment overwrites). -/

/-- Loop body of `decodeTlv`.  The `fuel` argument bounds the number of
loop iterations; each iteration consumes at least four characters, so
any fuel exceeding the input length is sufficient (proved in
`decodeTlvGo_fuel_irrelevant`). -/
def decodeTlvGo : Nat → Str → List (Str × Str) → List (Str × Str)
  | 0, _, out => out
  | fuel + 1, rest, out =>
    if 4 ≤ rest.length then
      let tag := rest.take 2
      let lenStr := (rest.drop 2).take 2
      if isTwoDigits lenStr then
        let len := twoDigitVal lenStr
        let value := (rest.drop 4).take len
        decodeTlvGo fuel (rest.drop (4 + len)) (out ++ [(tag, value)])
      else out
    else out

/-- Top-level TLV decoder (source `decodeTlv`): scan two-digit tag, then
a two-digit length that must match `^\d{2}$` (otherwise scanning stops),
then `len` characters of value (clamped to what remains, as
`String.prototype.slice` clamps). -/
def decodeTlv (qr : Str) : List (Str × Str) := decodeTlvGo (qr.length + 1) qr []

/-- Mapping view of the decoder result: the value of the last binding
for a key, mirroring JavaScript object assignment semantics. -/
def lookupTlv (m : List (Str × Str)) (k : Str) : Option Str :=
  (m.filter (fun p => p.1 == k)).getLast?.map (fun p => p.2)

/-! ## CRC verification -/

/-- Does `pat` occur at the head of `s`? (character-wise comparison). -/
def headMatches : Str → Str → Bool
  | [], _ => true
  | _ :: _, [] => false
  | a :: as, b :: bs => a == b && headMatches as bs

/-- Largest index `i ≤ n` at which `pat` occurs in `s`, scanning
downward; models `String.prototype.lastIndexOf` (which yields the
greatest occurrence index, or −1 mapped here to `none`). -/
def lastOccLE (pat s : Str) : Nat → Option Nat
  | 0 => if headMatches pat s then some 0 else none
  | n + 1 => if headMatches pat (s.drop (n + 1)) then some (n + 1) else lastOccLE pat s n

/-- The checksum tag-plus-length literal "6304". -/
def pat6304 : Str := ['6', '3', '0', '4']

/-- Payload verifier (source `verifyCrc`): find the last occurrence of
"6304", take the following four characters as the claimed checksum
(failing closed when fewer than four remain), recompute the CRC over
everything up to and including "6304", and compare case-insensitively. -/
def verifyCrc (qr : Str) : Bool :=
  match lastOccLE pat6304 qr qr.length with
  | none => false
  | some i =>
    let provided := (qr.drop (i + 4)).take 4
    if provided.length ≠ 4 then false
    else
      let crcInput := qr.take (i + 4)
      let expected := crc16CcittFalseHex crcInput
      provided.map Char.toUpper == expected.map Char.toUpper

/-! ## Configuration and assembly -/

/-- Profile variant. -/
inductive MerchantType where
  | individual
  | merchant
deriving DecidableEq, Repr

/-- Currency enumeration (validated by `setCurrency` to KHR or USD). -/
inductive Currency where
  | KHR
  | USD
deriving DecidableEq, Repr

/-- Snapshot of the builder's fields at the moment `generate()` is
called.  Optional setters that were never invoked are `none`; the
constructor defaults (`merchantCity = "Phnom Penh"`, `currency = KHR`,
`isStatic = false`) are the structure defaults.  `amount` holds the
string stored by `setAmount` (already normalized by `normalizeAmount`,
which is out of scope here). -/
structure Config where
  merchantType : MerchantType
  bakongAccountId : Option Str := none
  merchantName : Option Str := none
  merchantId : Option Str := none
  acquiringBank : Option Str := none
  accountInformation : Option Str := none
  merchantCity : Str := strL ("Phnom Penh")
  currency : Currency := .KHR
  amount : Option Str := none
  billNumber : Option Str := none
  mobileNumber : Option Str := none
  storeLabel : Option Str := none
  terminalLabel : Option Str := none
  purposeOfTransaction : Option Str := none
  upiAccountInformation : Option Str := none
  merchantAlternateLanguagePreference : Option Str := none
  merchantNameAlternateLanguage : Option Str := none
  merchantCityAlternateLanguage : Option Str := none
  isStatic : Bool := false
deriving DecidableEq, Repr

/-- Result of a successful generation.  The source also returns an MD5
fingerprint of `qr`, an external black-box digest omitted here. -/
structure GenerateResult where
  qr : Str
  timestamp : Option Str
  type : MerchantType
deriving DecidableEq, Repr

/-- JavaScript truthiness of an optional string field: `false` for
`undefined` and for the empty string. -/
def truthy : Option Str → Bool
  | none => false
  | some s => !s.isEmpty

/-- Models the pattern `this.x ? truncUtf8(this.x, n) : undefined`. -/
def optTrunc (o : Option Str) (n : Nat) : Option Str :=
  match o with
  | some s => if s.isEmpty then none else some (truncUtf8 s n)
  | none => none

/-- Payload assembly (source `KHQRGenerator.generate`).  `now` is the
injected wall-clock instant (`Date.now()`).  Field order, truncation
budgets, conditional inclusion and error behavior follow the source
line by line; `tlv` failures propagate through the `Except` monad as the
source's exceptions propagate. -/
def generate (cfg : Config) (now : Nat) : Except KhqrError GenerateResult :=
  if truthy cfg.bakongAccountId = false then
    .error (.missingRequiredField (strL ("BakongAccountID")))
  else if truthy cfg.merchantName = false then
    .error (.missingRequiredField (strL ("MerchantName")))
  else if cfg.merchantType = .merchant ∧ truthy cfg.merchantId = false then
    .error (.missingRequiredField (strL ("MerchantID")))
  else if cfg.merchantType = .merchant ∧ truthy cfg.acquiringBank = false then
    .error (.missingRequiredField (strL ("AcquiringBank")))
  else
    let bakongAccountId := truncUtf8 (cfg.bakongAccountId.getD []) 32
    let merchantName := truncUtf8 (cfg.merchantName.getD []) 25
    let merchantCity :=
      truncUtf8 (if cfg.merchantCity.isEmpty then strL ("Phnom Penh") else cfg.merchantCity) 15
    let merchantId := optTrunc cfg.merchantId 32
    let acquiringBank := optTrunc cfg.acquiringBank 32
    let accountInformation := optTrunc cfg.accountInformation 32
    let billNumber := optTrunc cfg.billNumber 25
    let mobileNumber := optTrunc cfg.mobileNumber 25
    let storeLabel := optTrunc cfg.storeLabel 25
    let terminalLabel := optTrunc cfg.terminalLabel 25
    let purpose := optTrunc cfg.purposeOfTransaction 25
    let upi := optTrunc cfg.upiAccountInformation 31
    let langPref := optTrunc cfg.merchantAlternateLanguagePreference 2
    let nameAlt := optTrunc cfg.merchantNameAlternateLanguage 25
    let cityAlt := optTrunc cfg.merchantCityAlternateLanguage 15
    let poi := if cfg.isStatic then strL ("11") else strL ("12")
    let currencyNumeric := if cfg.currency = .KHR then strL ("116") else strL ("840")
    tlv (strL ("00")) (strL ("01")) >>= fun f00 =>
    tlv (strL ("01")) poi >>= fun f01 =>
    (if truthy upi then tlv (strL ("15")) (upi.getD []) else pure []) >>= fun f15 =>
    (if cfg.merchantType = .individual then
       tlv (strL ("00")) bakongAccountId >>= fun t0 =>
       (if truthy accountInformation then tlv (strL ("01")) (accountInformation.getD [])
        else pure []) >>= fun t1 =>
       (if truthy acquiringBank then tlv (strL ("02")) (acquiringBank.getD [])
        else pure []) >>= fun t2 =>
       tlv (strL ("29")) (t0 ++ t1 ++ t2)
     else
       tlv (strL ("00")) bakongAccountId >>= fun t0 =>
       tlv (strL ("01")) (merchantId.getD []) >>= fun t1 =>
       tlv (strL ("02")) (acquiringBank.getD []) >>= fun t2 =>
       tlv (strL ("30")) (t0 ++ t1 ++ t2)) >>= fun fId =>
    tlv (strL ("52")) (strL ("5999")) >>= fun f52 =>
    tlv (strL ("53")) currencyNumeric >>= fun f53 =>
    (if cfg.amount ≠ none then tlv (strL ("54")) (cfg.amount.getD []) else pure []) >>= fun f54 =>
    tlv (strL ("58")) (strL ("KH")) >>= fun f58 =>
    tlv (strL ("59")) merchantName >>= fun f59 =>
    tlv (strL ("60")) merchantCity >>= fun f60 =>
    ((if truthy billNumber then tlv (strL ("01")) (billNumber.getD []) else pure []) >>= fun t1 =>
     (if truthy mobileNumber then tlv (strL ("02")) (mobileNumber.getD []) else pure []) >>= fun t2 =>
     (if truthy storeLabel then tlv (strL ("03")) (storeLabel.getD []) else pure []) >>= fun t3 =>
     (if truthy terminalLabel then tlv (strL ("07")) (terminalLabel.getD []) else pure []) >>= fun t7 =>
     (if truthy purpose then tlv (strL ("08")) (purpose.getD []) else pure []) >>= fun t8 =>
     (let t := t1 ++ t2 ++ t3 ++ t7 ++ t8
      if t.isEmpty then pure [] else tlv (strL ("62")) t)) >>= fun f62 =>
    ((if truthy langPref then tlv (strL ("00")) (langPref.getD []) else pure []) >>= fun t0 =>
     (if truthy nameAlt then tlv (strL ("01")) (nameAlt.getD []) else pure []) >>= fun t1 =>
     (if truthy cityAlt then tlv (strL ("02")) (cityAlt.getD []) else pure []) >>= fun t2 =>
     (let t := t0 ++ t1 ++ t2
      if t.isEmpty then pure [] else tlv (strL ("64")) t)) >>= fun f64 =>
    let timestamp := if cfg.isStatic then none else some (natDigits now)
    (if timestamp ≠ none then
       tlv (strL ("00")) (timestamp.getD []) >>= fun t99 =>
       tlv (strL ("99")) t99
     else pure []) >>= fun f99 =>
    let payload :=
      f00 ++ f01 ++ f15 ++ fId ++ f52 ++ f53 ++ f54 ++ f58 ++ f59 ++ f60 ++ f62 ++ f64 ++ f99
    let crcInput := payload ++ pat6304
    let crc := crc16CcittFalseHex crcInput
    pure { qr := crcInput ++ crc, timestamp := timestamp, type := cfg.merchantType }

/-- The static verifier entry point `KHQRGenerator.verify` delegates to
`verifyCrc`; modelled by `verifyCrc` directly. -/
def KHQRGenerator.verify (qr : Str) : Bool := verifyCrc qr

/-! ## Chunked CRC evaluation

Kernel reduction of the CRC register over a long input nests too deeply
to evaluate in one step, so concrete CRC values are established by
splitting the input into short chunks and folding the register through
them.  `crcStep` runs the register over one further chunk. -/

/-- Run the CRC register over the UTF-8 bytes of a further chunk. -/
def crcStep (s : Str) (c : Nat) : Nat := (utf8Bytes s).foldl crcByteStep c

theorem crc16_utf8_append (a b : Str) :
    crc16 (utf8Bytes (a ++ b)) = crcStep b (crc16 (utf8Bytes a)) := by
  simp [crc16, crcStep, utf8Bytes, List.foldl_append]

theorem crcStep_append (a b : Str) (c : Nat) :
    crcStep (a ++ b) c = crcStep b (crcStep a c) := by
  simp [crcStep, utf8Bytes, List.foldl_append]

set_option maxRecDepth 100000 in
/-- CRC of the counterexample payload used against C1: the checksum of
this crc input is the hex string "6304" itself. -/
theorem crcEval_counterexample :
    crc16CcittFalseHex (strL ("00020101021129050001a5204599953031165802KH5907n0496546010Phnom Penh6304"))
      = strL ("6304") := by
  have hsplit : strL ("00020101021129050001a5204599953031165802KH5907n0496546010Phnom Penh6304")
      = strL ("00020101021129050001a5204599953031")
          ++ (strL ("165802KH5907n0496546010Phnom Pen") ++ strL ("h6304")) := by decide
  have h1 : crc16 (utf8Bytes (strL ("00020101021129050001a5204599953031"))) = 49422 := by decide
  have h2 : crcStep (strL ("165802KH5907n0496546010Phnom Pen")) 49422 = 43608 := by decide
  have h3 : crcStep (strL ("h6304")) 43608 = 25348 := by decide
  rw [crc16CcittFalseHex, hsplit, crc16_utf8_append, crcStep_append, h1, h2, h3]
  decide

/-! ## Concrete evaluations settling claims against the code -/

set_option maxRecDepth 10000 in
/-- C2 evidence: with all required fields present and every free-text
field within its truncation budget (32-byte account id, 32-byte merchant
id, 32-byte bank id — no truncation even occurs), assembling the
merchant identity template reaches the encoder's ValueTooLong branch:
the tag-30 value is three sub-fields of 36 encoded bytes each, 108 bytes
total, exceeding the two-digit length ceiling of 99. -/
theorem valueTooLong_reachable :
    generate { merchantType := .merchant,
               bakongAccountId := some (strL ("aaaaaaaaaaaaaaaaaaaaaaaaaaaaaaaa")),
               merchantName := some (strL ("X")),
               merchantId := some (strL ("bbbbbbbbbbbbbbbbbbbbbbbbbbbbbbbb")),
               acquiringBank := some (strL ("cccccccccccccccccccccccccccccccc")),
               isStatic := true } 0
      = .error (.valueTooLong (strL ("30")) 108) := by decide

set_option maxRecDepth 100000 in
/-- C1 counterexample: a successful generation whose computed checksum
is the hex string "6304".  The payload then ends in "63046304", the
verifier's lastIndexOf finds the checksum value itself, fewer than four
characters follow it, and `verifyCrc` returns false. -/
theorem generate_verify_roundtrip_fails :
    generate { merchantType := .individual,
               bakongAccountId := some (strL ("a")),
               merchantName := some (strL ("n049654")),
               isStatic := true } 0
      = .ok { qr := strL ("00020101021129050001a5204599953031165802KH5907n0496546010Phnom Penh63046304"),
              timestamp := none,
              type := .individual } ∧
    verifyCrc (strL ("00020101021129050001a5204599953031165802KH5907n0496546010Phnom Penh63046304"))
      = false := by
  constructor
  · have hgen :
        generate { merchantType := .individual,
                   bakongAccountId := some (strL ("a")),
                   merchantName := some (strL ("n049654")),
                   isStatic := true } 0
          = .ok { qr := strL ("00020101021129050001a5204599953031165802KH5907n0496546010Phnom Penh6304")
                    ++ crc16CcittFalseHex (strL ("00020101021129050001a5204599953031165802KH5907n0496546010Phnom Penh6304")),
                  timestamp := none,
                  type := .individual } := rfl
    rw [crcEval_counterexample] at hgen
    rw [hgen]
    decide
  · decide

/-- C3 counterexample: on `"0102AB0299xyz"` the final field declares
length 99 with only three characters remaining; the code does not drop
that field — it stores it with the value clamped to the remaining
characters, so the decoded mapping contains tag "02" with value "xyz"
(the claim asserts the incomplete field is absent). -/
theorem decode_truncated_field_kept :
    decodeTlv (strL ("0102AB0299xyz"))
      = [(strL ("01"), strL ("AB")), (strL ("02"), strL ("xyz"))] ∧
    lookupTlv (decodeTlv (strL ("0102AB0299xyz"))) (strL ("02")) = some (strL ("xyz")) := by
  constructor
  · decide
  · decide

/-- C10: the decoder validates only the two-digit length against the
digit regex and never inspects the tag characters: on "AB03xyz", whose
tag "AB" is not made of digits, it returns the mapping with the
non-digit tag "AB" as a key. -/
theorem decode_ignores_tag_digits :
    decodeTlv (strL ("AB03xyz")) = [(strL ("AB"), strL ("xyz"))] ∧
    lookupTlv (decodeTlv (strL ("AB03xyz"))) (strL ("AB")) = some (strL ("xyz")) := by
  constructor
  · decide
  · decide

/-! ## Termination and totality of the decoder and verifier (C8) -/

/-- Any two sufficient fuels give the same decoder result: the loop
consumes at least four characters per iteration, so any fuel exceeding
the input length lets it run to completion. -/
theorem decodeTlvGo_fuel (f : Nat) :
    ∀ (g : Nat) (rest : Str) (out : List (Str × Str)),
      rest.length < f → rest.length < g →
      decodeTlvGo f rest out = decodeTlvGo g rest out := by
  induction f with
  | zero => intro g rest out h _; omega
  | succ f ih =>
    intro g rest out hf hg
    obtain ⟨g, rfl⟩ : ∃ g0, g = g0 + 1 := ⟨g - 1, by omega⟩
    simp only [decodeTlvGo]
    split
    · rename_i h4
      split
      · rename_i hdig
        apply ih
        · simpa using by omega
        · simpa using by omega
      · rfl
    · rfl

/-- C8: the decoder's loop terminates on every input with a stable
result (any sufficient iteration bound yields the same mapping), and the
verifier returns a boolean on every input; neither has an error
outcome. -/
theorem decode_verify_total (qr : Str) (fuel : Nat) (h : qr.length < fuel) :
    decodeTlvGo fuel qr [] = decodeTlv qr ∧
    (verifyCrc qr = true ∨ verifyCrc qr = false) := by
  constructor
  · exact decodeTlvGo_fuel fuel (qr.length + 1) qr [] h (by omega)
  · cases verifyCrc qr
    · exact Or.inr rfl
    · exact Or.inl rfl

/-- Witness for C8 at a concrete malformed input. -/
theorem decode_verify_total_witness :
    decodeTlvGo 9 (strL ("hello!!!")) [] = decodeTlv (strL ("hello!!!")) ∧
    (verifyCrc (strL ("hello!!!")) = true ∨ verifyCrc (strL ("hello!!!")) = false) :=
  decode_verify_total (strL ("hello!!!")) 9 (by decide)

/-! ## Decoding well-formed prefixes (amended C3) -/

set_option maxRecDepth 2000 in
/-- Properties of the two-digit length rendering for encodable lengths. -/
theorem lenDigits2_spec : ∀ n, n ≤ 99 →
    (lenDigits2 n).length = 2 ∧ isTwoDigits (lenDigits2 n) = true ∧
    twoDigitVal (lenDigits2 n) = n ∧ utf8ByteLength (lenDigits2 n) = 2 := by decide

theorem takeTwo (t X : Str) (h : t.length = 2) : (t ++ X).take 2 = t :=
  List.take_left' h

theorem dropTwo (t X : Str) (h : t.length = 2) : (t ++ X).drop 2 = X :=
  List.drop_left' h

theorem dropFour (t L X : Str) (h2 : t.length = 2) (hL : L.length = 2) :
    (t ++ (L ++ X)).drop 4 = X := by
  rw [← List.append_assoc]
  exact List.drop_left' (by simp [h2, hL])

theorem dropFourPlus (t L v rest : Str) (h2 : t.length = 2) (hL : L.length = 2) :
    (t ++ (L ++ (v ++ rest))).drop (4 + v.length) = rest := by
  rw [← List.append_assoc, ← List.append_assoc]
  exact List.drop_left' (by simp [h2, hL]; omega)

/-- Character-level TLV rendering of one field, as the decoder reads it
(two tag characters, two length digits giving the character count of the
value, then the value). -/
def encTlvChars (f : Str × Str) : Str := f.1 ++ (lenDigits2 f.2.length ++ f.2)

/-- Concatenation of character-level TLV fields. -/
def encFieldsChars (fs : List (Str × Str)) : Str := (fs.map encTlvChars).flatten

/-- The decoder consumes one full well-formed field and records it. -/
theorem decodeTlvGo_step (fuel : Nat) (t v rest : Str) (out : List (Str × Str))
    (ht : t.length = 2) (hv : v.length ≤ 99) :
    decodeTlvGo (fuel + 1) (t ++ (lenDigits2 v.length ++ (v ++ rest))) out
      = decodeTlvGo fuel rest (out ++ [(t, v)]) := by
  obtain ⟨hL, hdig, hval, _⟩ := lenDigits2_spec v.length hv
  have hguard : 4 ≤ (t ++ (lenDigits2 v.length ++ (v ++ rest))).length := by
    simp only [List.length_append, ht, hL]; omega
  simp only [decodeTlvGo]
  rw [if_pos hguard, takeTwo t _ ht, dropTwo t _ ht, takeTwo _ _ hL, if_pos hdig,
      hval, dropFour t _ _ ht hL, List.take_left, dropFourPlus t _ v rest ht hL]

/-- The decoder on the empty string returns the accumulator. -/
theorem decodeTlvGo_nil (fuel : Nat) (out : List (Str × Str)) :
    decodeTlvGo fuel [] out = out := by
  cases fuel <;> simp [decodeTlvGo]

/-- A final field whose declared length exceeds the remaining characters
is read with its value clamped to what remains, then scanning ends. -/
theorem decodeTlvGo_final_clamped (fuel : Nat) (t : Str) (d1 d2 : Char) (v : Str)
    (out : List (Str × Str)) (ht : t.length = 2)
    (h1 : d1.isDigit = true) (h2 : d2.isDigit = true)
    (hv : v.length < twoDigitVal [d1, d2]) :
    decodeTlvGo (fuel + 1) (t ++ ([d1, d2] ++ v)) out = out ++ [(t, v)] := by
  have hdd : ([d1, d2] : Str).length = 2 := rfl
  have hguard : 4 ≤ (t ++ ([d1, d2] ++ v)).length := by
    simp only [List.length_append, List.length_cons, List.length_nil, ht]; omega
  have hdig2 : isTwoDigits [d1, d2] = true := by simp [isTwoDigits, h1, h2]
  have hdropAll : (t ++ ([d1, d2] ++ v)).drop (4 + twoDigitVal [d1, d2]) = [] :=
    List.drop_eq_nil_of_le (by
      simp only [List.length_append, List.length_cons, List.length_nil, ht]
      omega)
  simp only [decodeTlvGo]
  rw [if_pos hguard, takeTwo t _ ht, dropTwo t _ ht, takeTwo _ _ hdd, if_pos hdig2,
      dropFour t _ _ ht hdd, List.take_of_length_le (le_of_lt hv), hdropAll,
      decodeTlvGo_nil]

/-- Scanning a concatenation of well-formed fields reads them all and
continues on the remaining suffix. -/
theorem decodeTlvGo_encFields (fs : List (Str × Str)) :
    ∀ (suffix : Str) (out : List (Str × Str)) (fuel : Nat),
      (∀ f ∈ fs, (f.1 : Str).length = 2 ∧ (f.2 : Str).length ≤ 99) →
      (encFieldsChars fs ++ suffix).length < fuel →
      decodeTlvGo fuel (encFieldsChars fs ++ suffix) out
        = decodeTlvGo (suffix.length + 1) suffix (out ++ fs) := by
  induction fs with
  | nil =>
    intro suffix out fuel _ hfuel
    simp only [encFieldsChars, List.map_nil, List.flatten_nil, List.nil_append,
      List.append_nil] at *
    exact decodeTlvGo_fuel fuel (suffix.length + 1) suffix out hfuel (by omega)
  | cons f fs ih =>
    intro suffix out fuel hfs hfuel
    obtain ⟨t, v⟩ := f
    have hflat : encFieldsChars ((t, v) :: fs) ++ suffix
        = t ++ (lenDigits2 v.length ++ (v ++ (encFieldsChars fs ++ suffix))) := by
      simp [encFieldsChars, encTlvChars, List.append_assoc]
    obtain ⟨ht, hv⟩ := hfs (t, v) (List.mem_cons_self _ _)
    obtain ⟨fuel, rfl⟩ : ∃ f0, fuel = f0 + 1 := ⟨fuel - 1, by omega⟩
    rw [hflat, decodeTlvGo_step fuel t v (encFieldsChars fs ++ suffix) out ht hv]
    have hlen : (encFieldsChars ((t, v) :: fs) ++ suffix).length
        = 4 + v.length + (encFieldsChars fs ++ suffix).length := by
      rw [hflat]; simp [ht, (lenDigits2_spec v.length hv).1]; omega
    rw [ih suffix (out ++ [(t, v)]) fuel
          (fun g hg => hfs g (List.mem_cons_of_mem _ hg)) (by omega)]
    simp

/-- Amended C3: on an input consisting of well-formed fields followed by
a final field whose two-digit declared length exceeds the remaining
characters, the decoder returns every fully read field, and the final
field is also present, its value clamped to the characters that remain
(the original claim wrongly asserted the final field is absent). -/
theorem decode_truncated_final_included (fs : List (Str × Str)) (t : Str)
    (d1 d2 : Char) (v : Str)
    (hfs : ∀ f ∈ fs, (f.1 : Str).length = 2 ∧ (f.2 : Str).length ≤ 99)
    (ht : t.length = 2) (h1 : d1.isDigit = true) (h2 : d2.isDigit = true)
    (hv : v.length < twoDigitVal [d1, d2]) :
    decodeTlv (encFieldsChars fs ++ (t ++ ([d1, d2] ++ v))) = fs ++ [(t, v)] := by
  rw [decodeTlv,
      decodeTlvGo_encFields fs (t ++ ([d1, d2] ++ v)) [] _ hfs (by omega)]
  have hslen : (t ++ ([d1, d2] ++ v)).length = (4 + v.length) + 1 - 1 := by
    simp [ht]; omega
  rw [hslen]
  have := decodeTlvGo_final_clamped (4 + v.length) t d1 d2 v ([] ++ fs) ht h1 h2 hv
  simpa using this

/-- Witness for the amended C3 at a concrete input: "1102ab" is a fully
read field, then tag "22" declares length 05 with only "xy" remaining. -/
theorem decode_truncated_final_witness :
    decodeTlv (encFieldsChars [(strL ("11"), strL ("ab"))]
        ++ (strL ("22") ++ (['0', '5'] ++ strL ("xy"))))
      = [(strL ("11"), strL ("ab")), (strL ("22"), strL ("xy"))] :=
  decode_truncated_final_included [(strL ("11"), strL ("ab"))] (strL ("22")) '0' '5'
    (strL ("xy")) (by decide) (by decide) (by decide) (by decide) (by decide)

/-! ## Inversion helpers for the assembly monad -/

theorem exceptBind_ok {ε α β : Type} {x : Except ε α} {f : α → Except ε β} {b : β}
    (h : (x >>= f) = .ok b) : ∃ a, x = .ok a ∧ f a = .ok b := by
  cases x with
  | error e => simp [Bind.bind, Except.bind] at h
  | ok a => exact ⟨a, rfl, by simpa [Bind.bind, Except.bind] using h⟩

theorem tlv_ok_inv {t v s : Str} (h : tlv t v = .ok s) : s = tlvRaw t v := by
  rw [tlv] at h
  split at h
  · cases h
  · split at h
    · cases h
    · cases h; rfl

theorem tlv_eq_ok (t v : Str) (hd : isTwoDigits t = true)
    (hl : utf8ByteLength v ≤ 99) : tlv t v = .ok (tlvRaw t v) := by
  rw [tlv, if_neg (by simp [hd]), if_neg (by omega)]

theorem utf8ByteLength_tlvRaw (t v : Str) (ht : utf8ByteLength t = 2)
    (hv : utf8ByteLength v ≤ 99) :
    utf8ByteLength (tlvRaw t v) = 4 + utf8ByteLength v := by
  rw [tlvRaw, utf8ByteLength_append, utf8ByteLength_append, ht,
      (lenDigits2_spec _ hv).2.2.2]

theorem digitChar_utf8Size : ∀ d, d < 10 → (digitChar d).utf8Size = 1 := by decide

theorem natDigitsGo_ascii (f : Nat) : ∀ (n : Nat) (acc : Str),
    (∀ c ∈ acc, c.utf8Size = 1) → ∀ c ∈ natDigitsGo f n acc, c.utf8Size = 1 := by
  induction f with
  | zero => intro n acc hacc; simpa [natDigitsGo] using hacc
  | succ f ih =>
    intro n acc hacc c hc
    rw [natDigitsGo] at hc
    split at hc
    · rename_i h10
      rcases List.mem_cons.mp hc with h | h
      · subst h; exact digitChar_utf8Size n h10
      · exact hacc c h
    · refine ih (n / 10) _ ?_ c hc
      intro d hd
      rcases List.mem_cons.mp hd with h | h
      · subst h; exact digitChar_utf8Size _ (Nat.mod_lt _ (by omega))
      · exact hacc d h

theorem utf8ByteLength_eq_length {s : Str} (h : ∀ c ∈ s, c.utf8Size = 1) :
    utf8ByteLength s = s.length := by
  induction s with
  | nil => rfl
  | cons c t ih =>
    rw [utf8ByteLength_cons, h c (by simp), ih (fun d hd => h d (by simp [hd])),
        List.length_cons]
    omega

theorem natDigits_bytes (n : Nat) :
    utf8ByteLength (natDigits n) = (natDigits n).length :=
  utf8ByteLength_eq_length (natDigitsGo_ascii (n + 1) n [] (by simp))

/-! ## Required-field preconditions (C6) -/

/-- Discharges one step of an `Except` bind chain: if the bound
computation succeeds with `a` and the continuation at `a` equals `r`,
the whole bind equals `r`. -/
theorem bindCongr_ok {ε α β : Type} {x : Except ε α} {a : α} {f : α → Except ε β}
    {r : Except ε β} (hx : x = .ok a) (hf : f a = r) : (x >>= f) = r := by
  subst hx
  subst hf
  simp [Bind.bind, Except.bind]

set_option maxRecDepth 10000 in
/-- C6: a merchant-variant configuration missing (undefined or empty,
i.e. JavaScript-falsy) the merchant id fails with MissingRequiredField
naming MerchantID; one missing the acquiring bank fails naming
AcquiringBank; and an individual-variant configuration with both of
those fields absent succeeds — for every nonempty account id and
display name, in static and in dynamic mode, at every clock instant
whose decimal rendering fits the tag-99 value budget. -/
theorem generate_required_fields :
    (∀ (cfg : Config) (now : Nat),
        cfg.merchantType = .merchant → truthy cfg.bakongAccountId = true →
        truthy cfg.merchantName = true → truthy cfg.merchantId = false →
        generate cfg now = .error (.missingRequiredField (strL ("MerchantID")))) ∧
    (∀ (cfg : Config) (now : Nat),
        cfg.merchantType = .merchant → truthy cfg.bakongAccountId = true →
        truthy cfg.merchantName = true → truthy cfg.merchantId = true →
        truthy cfg.acquiringBank = false →
        generate cfg now = .error (.missingRequiredField (strL ("AcquiringBank")))) ∧
    (∀ (acct name : Str) (st : Bool) (now : Nat),
        acct ≠ [] → name ≠ [] → (natDigits now).length ≤ 95 →
        ∃ res, generate { merchantType := .individual,
                          bakongAccountId := some acct,
                          merchantName := some name,
                          isStatic := st } now = .ok res) := by
  refine ⟨?_, ?_, ?_⟩
  · intro cfg now hmt hacc hname hmid
    rw [generate, if_neg (by simp [hacc]), if_neg (by simp [hname]),
        if_pos ⟨hmt, hmid⟩]
  · intro cfg now hmt hacc hname hmid hbank
    rw [generate, if_neg (by simp [hacc]), if_neg (by simp [hname]),
        if_neg (by simp [hmid]), if_pos ⟨hmt, hbank⟩]
  intro acct name st now ha hn hts
  have haE : acct.isEmpty = false := by cases acct <;> simp_all [List.isEmpty]
  have hnE : name.isEmpty = false := by cases name <;> simp_all [List.isEmpty]
  have hA : tlv (strL ("00")) (truncUtf8 acct 32) = .ok (tlvRaw (strL ("00")) (truncUtf8 acct 32)) :=
    tlv_eq_ok _ _ (by decide) (le_trans (utf8ByteLength_truncUtf8_le _ _) (by omega))
  have hN : tlv (strL ("59")) (truncUtf8 name 25) = .ok (tlvRaw (strL ("59")) (truncUtf8 name 25)) :=
    tlv_eq_ok _ _ (by decide) (le_trans (utf8ByteLength_truncUtf8_le _ _) (by omega))
  have hT29 : tlv (strL ("29")) (tlvRaw (strL ("00")) (truncUtf8 acct 32) ++ [] ++ []) =
      .ok (tlvRaw (strL ("29")) (tlvRaw (strL ("00")) (truncUtf8 acct 32) ++ [] ++ [])) := by
    rw [List.append_nil, List.append_nil]
    apply tlv_eq_ok _ _ (by decide)
    rw [utf8ByteLength_tlvRaw _ _ (by decide)
          (le_trans (utf8ByteLength_truncUtf8_le _ _) (by omega))]
    have := utf8ByteLength_truncUtf8_le acct 32
    omega
  have hTs : tlv (strL ("00")) (natDigits now) = .ok (tlvRaw (strL ("00")) (natDigits now)) :=
    tlv_eq_ok _ _ (by decide) (by rw [natDigits_bytes]; omega)
  have hT99 : tlv (strL ("99")) (tlvRaw (strL ("00")) (natDigits now)) =
      .ok (tlvRaw (strL ("99")) (tlvRaw (strL ("00")) (natDigits now))) := by
    apply tlv_eq_ok _ _ (by decide)
    rw [utf8ByteLength_tlvRaw _ _ (by decide) (by rw [natDigits_bytes]; omega),
        natDigits_bytes]
    omega
  cases st
  · refine ⟨?_, ?_⟩
    swap
    rw [generate, if_neg (by simp [truthy, haE]), if_neg (by simp [truthy, hnE]),
        if_neg (by simp), if_neg (by simp)]
    dsimp only [Option.getD, optTrunc]
    refine bindCongr_ok rfl ?_
    refine bindCongr_ok rfl ?_
    refine bindCongr_ok rfl ?_
    refine bindCongr_ok (?_ : _ = Except.ok (tlvRaw (strL ("29")) (tlvRaw (strL ("00")) (truncUtf8 acct 32) ++ [] ++ []))) ?_
    · rw [if_pos rfl]
      refine bindCongr_ok hA ?_
      refine bindCongr_ok rfl ?_
      refine bindCongr_ok rfl ?_
      exact hT29
    refine bindCongr_ok rfl ?_
    refine bindCongr_ok rfl ?_
    refine bindCongr_ok rfl ?_
    refine bindCongr_ok rfl ?_
    refine bindCongr_ok hN ?_
    refine bindCongr_ok rfl ?_
    refine bindCongr_ok rfl ?_
    refine bindCongr_ok rfl ?_
    refine bindCongr_ok (?_ : _ = Except.ok (tlvRaw (strL ("99")) (tlvRaw (strL ("00")) (natDigits now)))) ?_
    · rw [if_pos (by simp)]
      refine bindCongr_ok hTs ?_
      exact hT99
    exact rfl
  · refine ⟨?_, ?_⟩
    swap
    rw [generate, if_neg (by simp [truthy, haE]), if_neg (by simp [truthy, hnE]),
        if_neg (by simp), if_neg (by simp)]
    dsimp only [Option.getD, optTrunc]
    refine bindCongr_ok rfl ?_
    refine bindCongr_ok rfl ?_
    refine bindCongr_ok rfl ?_
    refine bindCongr_ok (?_ : _ = Except.ok (tlvRaw (strL ("29")) (tlvRaw (strL ("00")) (truncUtf8 acct 32) ++ [] ++ []))) ?_
    · rw [if_pos rfl]
      refine bindCongr_ok hA ?_
      refine bindCongr_ok rfl ?_
      refine bindCongr_ok rfl ?_
      exact hT29
    refine bindCongr_ok rfl ?_
    refine bindCongr_ok rfl ?_
    refine bindCongr_ok rfl ?_
    refine bindCongr_ok rfl ?_
    refine bindCongr_ok hN ?_
    refine bindCongr_ok rfl ?_
    refine bindCongr_ok rfl ?_
    refine bindCongr_ok rfl ?_
    refine bindCongr_ok rfl ?_
    exact rfl

set_option maxRecDepth 10000 in
/-- Witness for C6 at concrete configurations: a merchant missing its
merchant id, one missing its acquiring bank, and a succeeding
individual with both fields absent. -/
theorem generate_required_fields_witness :
    (generate { merchantType := .merchant,
                bakongAccountId := some (strL ("dev_merchant@devb")),
                merchantName := some (strL ("Dev Store")),
                isStatic := true } 0
      = .error (.missingRequiredField (strL ("MerchantID")))) ∧
    (generate { merchantType := .merchant,
                bakongAccountId := some (strL ("dev_merchant@devb")),
                merchantName := some (strL ("Dev Store")),
                merchantId := some (strL ("M-1")),
                isStatic := true } 0
      = .error (.missingRequiredField (strL ("AcquiringBank")))) ∧
    (∃ res, generate { merchantType := .individual,
                       bakongAccountId := some (strL ("john_smith@devb")),
                       merchantName := some (strL ("John Smith")),
                       isStatic := false } 0 = .ok res) :=
  ⟨generate_required_fields.1 _ 0 rfl (by decide) (by decide) (by decide),
   generate_required_fields.2.1 _ 0 rfl (by decide) (by decide) (by decide) (by decide),
   generate_required_fields.2.2 (strL ("john_smith@devb")) (strL ("John Smith")) false 0
     (by decide) (by decide) (by decide)⟩

/-! ## Decomposition of a successful assembly -/

/-- Concatenation of byte-length TLV fields, as the assembler emits
them. -/
def encFields (fs : List (Str × Str)) : Str :=
  (fs.map (fun f => tlvRaw f.1 f.2)).flatten

theorem encFields_append (a b : List (Str × Str)) :
    encFields (a ++ b) = encFields a ++ encFields b := by
  simp [encFields]

theorem pureBind_ok {ε α β : Type} {d : α} {k : α → Except ε β} {r : β}
    (h : ((pure d : Except ε α) >>= k) = .ok r) : k d = .ok r := by
  simpa [Bind.bind, pure, Except.pure, Except.bind] using h

theorem pure_ok_inv {ε α : Type} {x r : α} (h : (pure x : Except ε α) = .ok r) :
    r = x := by
  simpa [pure, Except.pure] using h.symm

theorem segIf_inv {ε α β : Type} {c : Prop} [inst : Decidable c] {A : Except ε α}
    {d : α} {k : α → Except ε β} {r : β}
    (h : ((if c then A else pure d) >>= k) = .ok r) :
    ∃ s, (s = d ∨ A = .ok s) ∧ k s = .ok r := by
  split at h
  · obtain ⟨s, hs, hk⟩ := exceptBind_ok h
    exact ⟨s, Or.inr hs, hk⟩
  · exact ⟨d, Or.inl rfl, pureBind_ok h⟩

theorem segIfBoth_inv {ε α β : Type} {c : Prop} [inst : Decidable c]
    {A B : Except ε α} {k : α → Except ε β} {r : β}
    (h : ((if c then A else B) >>= k) = .ok r) :
    ∃ s, (A = .ok s ∨ B = .ok s) ∧ k s = .ok r := by
  split at h
  · obtain ⟨s, hs, hk⟩ := exceptBind_ok h
    exact ⟨s, Or.inl hs, hk⟩
  · obtain ⟨s, hs, hk⟩ := exceptBind_ok h
    exact ⟨s, Or.inr hs, hk⟩

theorem iteRev_inv {ε : Type} {c : Prop} [inst : Decidable c] {A : Except ε Str}
    {d s : Str} (h : (if c then (pure d : Except ε Str) else A) = .ok s) :
    s = d ∨ A = .ok s := by
  split at h
  · exact Or.inl (pure_ok_inv h)
  · exact Or.inr h

/-- Packaging of an optional single field as a field list with a known
tag. -/
theorem orFields {t s : Str} (h : s = [] ∨ ∃ v, s = tlvRaw t v) :
    ∃ fs, s = encFields fs ∧ ∀ f ∈ fs, (f : Str × Str).1 = t := by
  rcases h with h | ⟨v, h⟩
  · exact ⟨[], by simp [encFields, h], by simp⟩
  · exact ⟨[(t, v)], by simp [encFields, h], by simp⟩

theorem segIfc_inv {ε α β : Type} {c : Prop} [inst : Decidable c] {A : Except ε α}
    {d : α} {k : α → Except ε β} {r : β}
    (h : ((if c then A else pure d) >>= k) = .ok r) :
    ∃ s, ((¬ c ∧ s = d) ∨ (c ∧ A = .ok s)) ∧ k s = .ok r := by
  split at h
  · rename_i hc
    obtain ⟨s, hs, hk⟩ := exceptBind_ok h
    exact ⟨s, Or.inr ⟨hc, hs⟩, hk⟩
  · rename_i hc
    exact ⟨d, Or.inl ⟨hc, rfl⟩, pureBind_ok h⟩

set_option maxRecDepth 8000 in
/-- Structure of every successful assembly: the returned payload is a
concatenation of TLV fields followed by "6304" and the CRC of
everything before it; the timestamp is null exactly in static mode; and
a tag-99 field is present exactly in dynamic mode, as the last field,
wrapping the rendered instant. -/
theorem generate_ok_decomp (cfg : Config) (now : Nat) (r : GenerateResult)
    (h : generate cfg now = .ok r) :
    r.type = cfg.merchantType ∧
    r.timestamp = (if cfg.isStatic = true then none else some (natDigits now)) ∧
    ∃ fs, r.qr = encFields fs ++ pat6304 ++ crc16CcittFalseHex (encFields fs ++ pat6304) ∧
      ((cfg.isStatic = true ∧ ∀ f ∈ fs, (f : Str × Str).1 ≠ strL ("99")) ∨
       (cfg.isStatic = false ∧
         ∃ fs0, fs = fs0 ++ [(strL ("99"), tlvRaw (strL ("00")) (natDigits now))] ∧
           ∀ f ∈ fs0, (f : Str × Str).1 ≠ strL ("99"))) := by
  rw [generate] at h
  split at h
  · exact absurd h (by simp)
  split at h
  · exact absurd h (by simp)
  split at h
  · exact absurd h (by simp)
  split at h
  · exact absurd h (by simp)
  obtain ⟨f00, h00, h⟩ := exceptBind_ok h
  obtain ⟨f01, h01, h⟩ := exceptBind_ok h
  obtain ⟨f15, hf15, h⟩ := segIf_inv h
  obtain ⟨fId, hfId, h⟩ := segIfBoth_inv h
  obtain ⟨f52, h52, h⟩ := exceptBind_ok h
  obtain ⟨f53, h53, h⟩ := exceptBind_ok h
  obtain ⟨f54, hf54, h⟩ := segIf_inv h
  obtain ⟨f58, h58, h⟩ := exceptBind_ok h
  obtain ⟨f59, h59, h⟩ := exceptBind_ok h
  obtain ⟨f60, h60, h⟩ := exceptBind_ok h
  obtain ⟨f62, h62, h⟩ := exceptBind_ok h
  obtain ⟨f64, h64, h⟩ := exceptBind_ok h
  obtain ⟨f99, hf99, h⟩ := segIfc_inv h
  replace h := pure_ok_inv h
  subst h
  obtain ⟨fs00, hfs00, htag00⟩ := orFields (Or.inr ⟨_, tlv_ok_inv h00⟩)
  obtain ⟨fs01, hfs01, htag01⟩ := orFields (Or.inr ⟨_, tlv_ok_inv h01⟩)
  obtain ⟨fs15, hfs15, htag15⟩ :=
    orFields (hf15.imp (fun hh => hh) (fun hh => ⟨_, tlv_ok_inv hh⟩))
  have hIdF : ∃ fs, fId = encFields fs ∧
      ∀ f ∈ fs, (f : Str × Str).1 = strL ("29") ∨ (f : Str × Str).1 = strL ("30") := by
    rcases hfId with hh | hh
    · obtain ⟨t0, ht0, hh⟩ := exceptBind_ok hh
      obtain ⟨t1, ht1, hh⟩ := segIf_inv hh
      obtain ⟨t2, ht2, hh⟩ := segIf_inv hh
      exact ⟨[(strL ("29"), t0 ++ t1 ++ t2)], by simp [encFields, tlv_ok_inv hh], by simp⟩
    · obtain ⟨t0, ht0, hh⟩ := exceptBind_ok hh
      obtain ⟨t1, ht1, hh⟩ := exceptBind_ok hh
      obtain ⟨t2, ht2, hh⟩ := exceptBind_ok hh
      exact ⟨[(strL ("30"), t0 ++ t1 ++ t2)], by simp [encFields, tlv_ok_inv hh], by simp⟩
  obtain ⟨fsId, hfsId, htagId⟩ := hIdF
  obtain ⟨fs52, hfs52, htag52⟩ := orFields (Or.inr ⟨_, tlv_ok_inv h52⟩)
  obtain ⟨fs53, hfs53, htag53⟩ := orFields (Or.inr ⟨_, tlv_ok_inv h53⟩)
  obtain ⟨fs54, hfs54, htag54⟩ :=
    orFields (hf54.imp (fun hh => hh) (fun hh => ⟨_, tlv_ok_inv hh⟩))
  obtain ⟨fs58, hfs58, htag58⟩ := orFields (Or.inr ⟨_, tlv_ok_inv h58⟩)
  obtain ⟨fs59, hfs59, htag59⟩ := orFields (Or.inr ⟨_, tlv_ok_inv h59⟩)
  obtain ⟨fs60, hfs60, htag60⟩ := orFields (Or.inr ⟨_, tlv_ok_inv h60⟩)
  have h62F : ∃ fs, f62 = encFields fs ∧ ∀ f ∈ fs, (f : Str × Str).1 = strL ("62") := by
    obtain ⟨t1, ht1, hh⟩ := segIf_inv h62
    obtain ⟨t2, ht2, hh⟩ := segIf_inv hh
    obtain ⟨t3, ht3, hh⟩ := segIf_inv hh
    obtain ⟨t7, ht7, hh⟩ := segIf_inv hh
    obtain ⟨t8, ht8, hh⟩ := segIf_inv hh
    exact orFields ((iteRev_inv hh).imp (fun he => he) (fun he => ⟨_, tlv_ok_inv he⟩))
  obtain ⟨fs62, hfs62, htag62⟩ := h62F
  have h64F : ∃ fs, f64 = encFields fs ∧ ∀ f ∈ fs, (f : Str × Str).1 = strL ("64") := by
    obtain ⟨t0, ht0, hh⟩ := segIf_inv h64
    obtain ⟨t1, ht1, hh⟩ := segIf_inv hh
    obtain ⟨t2, ht2, hh⟩ := segIf_inv hh
    exact orFields ((iteRev_inv hh).imp (fun he => he) (fun he => ⟨_, tlv_ok_inv he⟩))
  obtain ⟨fs64, hfs64, htag64⟩ := h64F
  refine ⟨rfl, rfl, ?_⟩
  cases hst : cfg.isStatic
  · rw [hst] at hf99
    rcases hf99 with ⟨hc, _⟩ | ⟨_, hA⟩
    · exact absurd (by simp) hc
    obtain ⟨t99, ht99, hA⟩ := exceptBind_ok hA
    have ht99v := tlv_ok_inv ht99
    have hf99v := tlv_ok_inv hA
    simp only [Bool.false_eq_true, if_false, Option.getD_some] at ht99v
    subst ht99v
    refine ⟨fs00 ++ fs01 ++ fs15 ++ fsId ++ fs52 ++ fs53 ++ fs54 ++ fs58 ++ fs59
        ++ fs60 ++ fs62 ++ fs64 ++ [(strL ("99"), tlvRaw (strL ("00")) (natDigits now))],
      ?_, Or.inr ⟨rfl, fs00 ++ fs01 ++ fs15 ++ fsId ++ fs52 ++ fs53 ++ fs54 ++ fs58
        ++ fs59 ++ fs60 ++ fs62 ++ fs64, by simp [List.append_assoc], ?_⟩⟩
    · show (f00 ++ f01 ++ f15 ++ fId ++ f52 ++ f53 ++ f54 ++ f58 ++ f59 ++ f60 ++ f62
          ++ f64 ++ f99) ++ pat6304 ++ _ = _
      rw [hfs00, hfs01, hfs15, hfsId, hfs52, hfs53, hfs54, hfs58, hfs59, hfs60,
          hfs62, hfs64, hf99v]
      simp [encFields_append, encFields, List.append_assoc]
    · intro f hf
      simp only [List.mem_append] at hf
      rcases hf with (((((((((((hf | hf) | hf) | hf) | hf) | hf) | hf) | hf) | hf)
          | hf) | hf) | hf)
      · rw [htag00 f hf]; decide
      · rw [htag01 f hf]; decide
      · rw [htag15 f hf]; decide
      · rcases htagId f hf with hh | hh
        · rw [hh]; decide
        · rw [hh]; decide
      · rw [htag52 f hf]; decide
      · rw [htag53 f hf]; decide
      · rw [htag54 f hf]; decide
      · rw [htag58 f hf]; decide
      · rw [htag59 f hf]; decide
      · rw [htag60 f hf]; decide
      · rw [htag62 f hf]; decide
      · rw [htag64 f hf]; decide
  · rw [hst] at hf99
    rcases hf99 with ⟨_, h99e⟩ | ⟨hc, _⟩
    swap
    · exact absurd hc (by simp)
    subst h99e
    refine ⟨fs00 ++ fs01 ++ fs15 ++ fsId ++ fs52 ++ fs53 ++ fs54 ++ fs58 ++ fs59
        ++ fs60 ++ fs62 ++ fs64, ?_, Or.inl ⟨rfl, ?_⟩⟩
    · show (f00 ++ f01 ++ f15 ++ fId ++ f52 ++ f53 ++ f54 ++ f58 ++ f59 ++ f60 ++ f62
          ++ f64 ++ []) ++ pat6304 ++ _ = _
      rw [hfs00, hfs01, hfs15, hfsId, hfs52, hfs53, hfs54, hfs58, hfs59, hfs60,
          hfs62, hfs64]
      simp [encFields_append, encFields, List.append_assoc]
    · intro f hf
      simp only [List.mem_append] at hf
      rcases hf with ((((((((((hf | hf) | hf) | hf) | hf) | hf) | hf) | hf) | hf)
          | hf) | hf) | hf
      · rw [htag00 f hf]; decide
      · rw [htag01 f hf]; decide
      · rw [htag15 f hf]; decide
      · rcases htagId f hf with hh | hh
        · rw [hh]; decide
        · rw [hh]; decide
      · rw [htag52 f hf]; decide
      · rw [htag53 f hf]; decide
      · rw [htag54 f hf]; decide
      · rw [htag58 f hf]; decide
      · rw [htag59 f hf]; decide
      · rw [htag60 f hf]; decide
      · rw [htag62 f hf]; decide
      · rw [htag64 f hf]; decide

/-- C7: when static mode is selected, a successful assembly returns a
null timestamp and a payload containing no tag-99 field; when dynamic
mode is selected, it returns the decimal rendering of the injected
instant as the timestamp, and the payload contains exactly one tag-99
field — the last field before the checksum — whose value is a single
sub-field "00" wrapping that same timestamp string. -/
theorem generate_timestamp_tag99 (cfg : Config) (now : Nat) (r : GenerateResult)
    (h : generate cfg now = .ok r) :
    (cfg.isStatic = true →
      r.timestamp = none ∧
      ∃ fs, r.qr = encFields fs ++ pat6304 ++ crc16CcittFalseHex (encFields fs ++ pat6304) ∧
        ∀ f ∈ fs, (f : Str × Str).1 ≠ strL ("99")) ∧
    (cfg.isStatic = false →
      r.timestamp = some (natDigits now) ∧
      ∃ fs0,
        r.qr = encFields (fs0 ++ [(strL ("99"), tlvRaw (strL ("00")) (natDigits now))])
          ++ pat6304
          ++ crc16CcittFalseHex
              (encFields (fs0 ++ [(strL ("99"), tlvRaw (strL ("00")) (natDigits now))])
                ++ pat6304) ∧
        ∀ f ∈ fs0, (f : Str × Str).1 ≠ strL ("99")) := by
  obtain ⟨hty, hts, fs, hqr, hdisj⟩ := generate_ok_decomp cfg now r h
  constructor
  · intro hst
    rcases hdisj with ⟨_, htags⟩ | ⟨hfalse, _⟩
    · exact ⟨by rw [hts, if_pos hst], fs, hqr, htags⟩
    · rw [hst] at hfalse; cases hfalse
  · intro hst
    rcases hdisj with ⟨htrue, _⟩ | ⟨_, fs0, hfs, htags⟩
    · rw [hst] at htrue; cases htrue
    · refine ⟨by rw [hts, if_neg (by rw [hst]; simp)], fs0, ?_, htags⟩
      rw [← hfs]
      exact hqr

/-- Crc input of the concrete static generation used as C7 witness. -/
def qrInputS : Str :=
  strL ("00020101021129050001a5204599953031165802KH5901n6010Phnom Penh6304")

/-- Crc input of the concrete dynamic generation used as C7 witness. -/
def qrInputD : Str :=
  strL ("00020101021229050001a5204599953031165802KH5901n6010Phnom Penh9905000156304")

/-- Result of the concrete static generation used as C7 witness. -/
def resS : GenerateResult :=
  { qr := qrInputS ++ crc16CcittFalseHex qrInputS, timestamp := none,
    type := MerchantType.individual }

/-- Result of the concrete dynamic generation used as C7 witness. -/
def resD : GenerateResult :=
  { qr := qrInputD ++ crc16CcittFalseHex qrInputD, timestamp := some (natDigits 5),
    type := MerchantType.individual }

set_option maxRecDepth 100000 in
/-- Witness for C7: a concrete static generation (timestamp null, no
tag-99 field) and a concrete dynamic generation at instant 5 (timestamp
"5", exactly one tag-99 field wrapping sub-field "00" with value "5"). -/
theorem generate_timestamp_tag99_witness :
    (resS.timestamp = none ∧
      ∃ fs, resS.qr = encFields fs ++ pat6304 ++ crc16CcittFalseHex (encFields fs ++ pat6304) ∧
        ∀ f ∈ fs, (f : Str × Str).1 ≠ strL ("99")) ∧
    (resD.timestamp = some (natDigits 5) ∧
      ∃ fs0,
        resD.qr = encFields (fs0 ++ [(strL ("99"), tlvRaw (strL ("00")) (natDigits 5))])
          ++ pat6304
          ++ crc16CcittFalseHex
              (encFields (fs0 ++ [(strL ("99"), tlvRaw (strL ("00")) (natDigits 5))])
                ++ pat6304) ∧
        ∀ f ∈ fs0, (f : Str × Str).1 ≠ strL ("99")) :=
  ⟨(generate_timestamp_tag99
      { merchantType := .individual, bakongAccountId := some (strL ("a")),
        merchantName := some (strL ("n")), isStatic := true } 0 resS rfl).1 rfl,
   (generate_timestamp_tag99
      { merchantType := .individual, bakongAccountId := some (strL ("a")),
        merchantName := some (strL ("n")), isStatic := false } 5 resD rfl).2 rfl⟩

/-! ## Round-trip verification (amended C1) -/

theorem headMatches_append_self (p t : Str) : headMatches p (p ++ t) = true := by
  induction p with
  | nil => rfl
  | cons c cs ih => simp [headMatches, ih]

theorem headMatches_le_length {p s : Str} (h : headMatches p s = true) :
    p.length ≤ s.length := by
  induction p generalizing s with
  | nil => simp
  | cons c cs ih =>
    cases s with
    | nil => simp [headMatches] at h
    | cons b bs =>
      simp only [headMatches, Bool.and_eq_true] at h
      have := ih h.2
      simp only [List.length_cons]
      omega

theorem headMatches_eq {p s : Str} (h : headMatches p s = true)
    (hl : s.length = p.length) : s = p := by
  induction p generalizing s with
  | nil =>
    cases s with
    | nil => rfl
    | cons b bs => simp at hl
  | cons c cs ih =>
    cases s with
    | nil => simp [headMatches] at h
    | cons b bs =>
      simp only [headMatches, Bool.and_eq_true, beq_iff_eq] at h
      obtain ⟨h1, h2⟩ := h
      simp only [List.length_cons] at hl
      rw [h1.symm, ih h2 (by omega)]

theorem lastOccLE_eq_some (pat s : Str) (j : Nat) :
    ∀ (n : Nat), j ≤ n → headMatches pat (s.drop j) = true →
      (∀ k, j < k → k ≤ n → headMatches pat (s.drop k) = false) →
      lastOccLE pat s n = some j := by
  intro n
  induction n with
  | zero =>
    intro hj hyes _
    interval_cases j
    rw [lastOccLE, if_pos (by simpa using hyes)]
  | succ n ih =>
    intro hj hyes hno
    rw [lastOccLE]
    by_cases hcase : j = n + 1
    · subst hcase
      rw [if_pos hyes]
    · rw [if_neg (by simp [hno (n + 1) (by omega) (by omega)]),
          ih (by omega) hyes (fun k hk1 hk2 => hno k hk1 (by omega))]

/-- Core round-trip property: a string of the shape
`payload ++ "6304" ++ crc` verifies, provided the computed CRC hex is
not itself the string "6304" (in which case the verifier's lastIndexOf
finds the checksum value and fails on the length check). -/
theorem verifyCrc_of_shape (p : Str)
    (hne : crc16CcittFalseHex (p ++ pat6304) ≠ pat6304) :
    verifyCrc (p ++ pat6304 ++ crc16CcittFalseHex (p ++ pat6304)) = true := by
  have hlen4 : (crc16CcittFalseHex (p ++ pat6304)).length = 4 := rfl
  have hqrlen : (p ++ pat6304 ++ crc16CcittFalseHex (p ++ pat6304)).length
      = p.length + 8 := by
    simp only [List.length_append, hlen4, show (pat6304 : Str).length = 4 from rfl]
  have hocc : headMatches pat6304
      ((p ++ pat6304 ++ crc16CcittFalseHex (p ++ pat6304)).drop p.length) = true := by
    rw [List.append_assoc, List.drop_left]
    exact headMatches_append_self _ _
  have hmax : ∀ k, p.length < k → k ≤ p.length + 8 →
      headMatches pat6304
        ((p ++ pat6304 ++ crc16CcittFalseHex (p ++ pat6304)).drop k) = false := by
    intro k hk1 hk2
    obtain ⟨m, rfl⟩ : ∃ m, k = p.length + m := ⟨k - p.length, by omega⟩
    rw [List.append_assoc, List.drop_append]
    have hm1 : 1 ≤ m := by omega
    have hm8 : m ≤ 8 := by omega
    interval_cases m
    · simp [pat6304, headMatches]
    · simp [pat6304, headMatches]
    · simp [pat6304, headMatches]
    · show headMatches pat6304 (crc16CcittFalseHex (p ++ pat6304)) = false
      cases hhm : headMatches pat6304 (crc16CcittFalseHex (p ++ pat6304)) with
      | false => rfl
      | true => exact absurd (headMatches_eq hhm (by rw [hlen4]; rfl)) hne
    · show headMatches pat6304 ((crc16CcittFalseHex (p ++ pat6304)).drop 1) = false
      cases hhm : headMatches pat6304 ((crc16CcittFalseHex (p ++ pat6304)).drop 1) with
      | false => rfl
      | true =>
        have := headMatches_le_length hhm
        simp only [List.length_drop, hlen4,
          show (pat6304 : Str).length = 4 from rfl] at this
        omega
    · show headMatches pat6304 ((crc16CcittFalseHex (p ++ pat6304)).drop 2) = false
      cases hhm : headMatches pat6304 ((crc16CcittFalseHex (p ++ pat6304)).drop 2) with
      | false => rfl
      | true =>
        have := headMatches_le_length hhm
        simp only [List.length_drop, hlen4,
          show (pat6304 : Str).length = 4 from rfl] at this
        omega
    · show headMatches pat6304 ((crc16CcittFalseHex (p ++ pat6304)).drop 3) = false
      cases hhm : headMatches pat6304 ((crc16CcittFalseHex (p ++ pat6304)).drop 3) with
      | false => rfl
      | true =>
        have := headMatches_le_length hhm
        simp only [List.length_drop, hlen4,
          show (pat6304 : Str).length = 4 from rfl] at this
        omega
    · show headMatches pat6304 ((crc16CcittFalseHex (p ++ pat6304)).drop 4) = false
      cases hhm : headMatches pat6304 ((crc16CcittFalseHex (p ++ pat6304)).drop 4) with
      | false => rfl
      | true =>
        have := headMatches_le_length hhm
        simp only [List.length_drop, hlen4,
          show (pat6304 : Str).length = 4 from rfl] at this
        omega
  have hlast : lastOccLE pat6304 (p ++ pat6304 ++ crc16CcittFalseHex (p ++ pat6304))
      (p ++ pat6304 ++ crc16CcittFalseHex (p ++ pat6304)).length = some p.length := by
    rw [hqrlen]
    exact lastOccLE_eq_some _ _ _ _ (by omega) hocc hmax
  have hppat : (p ++ pat6304).length = p.length + 4 := by simp [pat6304]
  have hprov : (p ++ pat6304 ++ crc16CcittFalseHex (p ++ pat6304)).drop (p.length + 4)
      = crc16CcittFalseHex (p ++ pat6304) := by
    rw [List.drop_left' hppat]
  have hinput : (p ++ pat6304 ++ crc16CcittFalseHex (p ++ pat6304)).take (p.length + 4)
      = p ++ pat6304 := by
    rw [List.take_left' hppat]
  rw [verifyCrc, hlast]
  simp only [hprov, hinput, List.take_of_length_le (le_of_eq hlen4), hlen4]
  simp

/-- Amended C1: for every configuration on which generate succeeds,
`verifyCrc` accepts the returned payload, provided the payload's last
four characters — the computed checksum — are not the string "6304".
(When the checksum is "6304" the verifier's last-occurrence search
lands on the checksum value itself and verification fails, as
`generate_verify_roundtrip_fails` shows; the original claim asserted
unconditional success.) -/
theorem generate_verify_ok (cfg : Config) (now : Nat) (r : GenerateResult)
    (h : generate cfg now = .ok r)
    (hne : r.qr.drop (r.qr.length - 4) ≠ pat6304) :
    verifyCrc r.qr = true := by
  obtain ⟨-, -, fs, hqr, -⟩ := generate_ok_decomp cfg now r h
  rw [hqr] at hne ⊢
  apply verifyCrc_of_shape
  intro hEq
  apply hne
  have h4 : (crc16CcittFalseHex (encFields fs ++ pat6304)).length = 4 := rfl
  have hsub : (encFields fs ++ pat6304
        ++ crc16CcittFalseHex (encFields fs ++ pat6304)).length - 4
      = (encFields fs ++ pat6304).length := by
    simp only [List.length_append, h4]
    omega
  rw [hsub, List.drop_left]
  exact hEq

/-- Crc input of the concrete generation used as witness for the
amended C1. -/
def qrInputW : Str :=
  strL ("00020101021129190015john_smith@devb5204599953031165802KH5910John Smith6010Phnom Penh6304")

set_option maxRecDepth 100000 in
/-- The checksum of the witness payload is "6BFA" (evaluated in
chunks). -/
theorem crcEval_witness : crc16CcittFalseHex qrInputW = strL ("6BFA") := by
  have hsplit : qrInputW
      = strL ("00020101021129190015john_smith")
          ++ (strL ("@devb5204599953031165802KH5910")
            ++ strL ("John Smith6010Phnom Penh6304")) := by decide
  have h1 : crc16 (utf8Bytes (strL ("00020101021129190015john_smith"))) = 8703 := by decide
  have h2 : crcStep (strL ("@devb5204599953031165802KH5910")) 8703 = 11753 := by decide
  have h3 : crcStep (strL ("John Smith6010Phnom Penh6304")) 11753 = 27642 := by decide
  rw [crc16CcittFalseHex, hsplit, crc16_utf8_append, crcStep_append, h1, h2, h3]
  decide

set_option maxRecDepth 100000 in
/-- Witness for the amended C1: the repository test's configuration
verifies end to end (its checksum "6BFA" differs from "6304"). -/
theorem generate_verify_ok_witness :
    verifyCrc (qrInputW ++ crc16CcittFalseHex qrInputW) = true := by
  have hne : (qrInputW ++ crc16CcittFalseHex qrInputW).drop
      ((qrInputW ++ crc16CcittFalseHex qrInputW).length - 4) ≠ pat6304 := by
    rw [crcEval_witness]
    decide
  exact generate_verify_ok
    { merchantType := .individual,
      bakongAccountId := some (strL ("john_smith@devb")),
      merchantName := some (strL ("John Smith")),
      isStatic := true } 0
    { qr := qrInputW ++ crc16CcittFalseHex qrInputW, timestamp := none,
      type := MerchantType.individual } rfl hne
